import Mathlib

/-!
Shallow embedding of `RegionPersistentCounter` (src/OCR_suitcase.py), the
identity-stabilization and one-shot region-assignment core of the suitcase
counting program.  Drawing, video I/O and the YOLO model call are pure
presentation / external collaborators and are not part of the state machine;
everything that reads or writes `yolo_id_to_custom_id`, `next_custom_id` or
`object_region_assignments` is embedded faithfully below.
-/

/-! ## Geometry: points, polygons, membership -/

/-- A 2D point with exact rational coordinates.  Bounding-box coordinates in
the source are integers (`astype(int)`), but midpoints use Python true
division `(x1 + x2) / 2`, which yields exact half-integers; ℚ models all of
these exactly. -/
abbrev Pt : Type := ℚ × ℚ

/-- A region polygon, given as its ordered vertex list (the source builds
`shapely.geometry.Polygon(region_points)` from such a list). -/
abbrev RegionPoly : Type := List Pt

/-- 2D cross product of two vectors. -/
def cross2 (u v : Pt) : ℚ := u.1 * v.2 - u.2 * v.1

/-- The edge list of a polygon: consecutive vertex pairs, closing the ring
back to the first vertex (shapely closes the ring implicitly). -/
def edges : RegionPoly → List (Pt × Pt)
  | [] => []
  | v :: vs => List.zip (v :: vs) (vs ++ [v])

/-- Point `p` lies on the closed segment from `a` to `b`: collinear with it and
within its bounding box. -/
def onSegment (p a b : Pt) : Bool :=
  decide (cross2 (b.1 - a.1, b.2 - a.2) (p.1 - a.1, p.2 - a.2) = 0 ∧
    min a.1 b.1 ≤ p.1 ∧ p.1 ≤ max a.1 b.1 ∧
    min a.2 b.2 ≤ p.2 ∧ p.2 ≤ max a.2 b.2)

/-- One step of even–odd ray casting: does the horizontal ray from `p`
towards `+x` cross the edge from `a` to `b`?  (Half-open rule in `y` so a
crossing at a shared vertex is counted exactly once.) -/
def edgeCrosses (p a b : Pt) : Bool :=
  decide (((a.2 ≤ p.2 ∧ p.2 < b.2) ∨ (b.2 ≤ p.2 ∧ p.2 < a.2)) ∧
    p.1 < a.1 + (p.2 - a.2) * (b.1 - a.1) / (b.2 - a.2))

/-- Modelled from the spec: the point-in-polygon capability
(`shapely`'s `Polygon.contains(Point)`, called by `is_in_region`, is a
third-party geometry primitive the spec treats as an assumed capability).
Shapely's `contains` is strict-interior membership: a point on the polygon's
boundary (edge or vertex) is NOT contained; a point off the boundary is
contained iff it is inside by the even–odd rule. -/
def containsPoint (poly : RegionPoly) (p : Pt) : Bool :=
  if (edges poly).any (fun e => onSegment p e.1 e.2) then false
  else decide ((edges poly).countP (fun e => edgeCrosses p e.1 e.2) % 2 = 1)

/-- Function `RegionPersistentCounter.is_in_region` (src lines 57–60): check if a
point is inside the given region polygon, via the polygon `contains` test. -/
def is_in_region (point_xy : Pt) (region_polygon : RegionPoly) : Bool :=
  containsPoint region_polygon point_xy

/-! ## Counter state -/

/-- Association-list lookup (first matching key), modelling Python `dict`
key lookup. -/
def alookup {α β : Type} [DecidableEq α] (k : α) : List (α × β) → Option β
  | [] => none
  | (k', v) :: rest => if k = k' then some v else alookup k rest

/-- The mutable state of `RegionPersistentCounter` that the counting logic
touches (src lines 45–50): the YOLO-track-id → custom-id registry, the
issuance counter, and the custom-id → region assignment ledger.  Python
dicts are modelled as association lists in insertion order (new keys are
appended; both dicts only ever gain keys). -/
structure CounterState where
  yolo_id_to_custom_id : List (Int × Nat)
  next_custom_id : Nat
  object_region_assignments : List (Nat × Nat)
deriving DecidableEq, Repr

/-- The state set up by `__init__`: empty registry, counter at 1, empty
ledger. -/
def initState : CounterState := ⟨[], 1, []⟩

/-! ## Per-detection processing (src lines 139–207) -/

/-- The six candidate sample points checked for an unassigned object
(src lines 180–187), in source order: top-right corner, bottom-left corner,
bottom-right corner, bottom midpoint, left midpoint, right midpoint. -/
def check_points (x1 y1 x2 y2 : Int) : List Pt :=
  [ ((x2 : ℚ), (y1 : ℚ)),
    ((x1 : ℚ), (y2 : ℚ)),
    ((x2 : ℚ), (y2 : ℚ)),
    (((x1 : ℚ) + (x2 : ℚ)) / 2, (y2 : ℚ)),
    ((x1 : ℚ), ((y1 : ℚ) + (y2 : ℚ)) / 2),
    ((x2 : ℚ), ((y1 : ℚ) + (y2 : ℚ)) / 2) ]

/-- The region-check loop (src lines 189–197): walk the candidate points in
order; for each point test Region 1 first, then Region 2, and break on the
first hit.  The two flags `in_r1`/`in_r2` are mutually exclusive because the
loop breaks as soon as either is set, so the loop's outcome is exactly one
of: Region 1 hit (`some 1`), Region 2 hit (`some 2`), or no hit (`none`). -/
def findVerdict (r1 r2 : RegionPoly) : List Pt → Option Nat
  | [] => none
  | cp :: rest =>
    if is_in_region cp r1 then some 1
    else if is_in_region cp r2 then some 2
    else findVerdict r1 r2 rest

/-- Number of `is_in_region` geometry tests executed by the region-check
loop on the given candidate points (1 test for a point that hits Region 1,
2 for a point that misses Region 1, after which the loop either stops on a
Region 2 hit or moves on). -/
def findVerdictTests (r1 r2 : RegionPoly) : List Pt → Nat
  | [] => 0
  | cp :: rest =>
    if is_in_region cp r1 then 1
    else if is_in_region cp r2 then 2
    else 2 + findVerdictTests r1 r2 rest

/-- Resolve a YOLO track id to a custom id (src lines 145–148): if unseen,
record `next_custom_id` for it and increment the counter; return the
(possibly updated) state together with the custom id. -/
def resolveId (st : CounterState) (yolo_id : Int) : CounterState × Nat :=
  match alookup yolo_id st.yolo_id_to_custom_id with
  | some uid => (st, uid)
  | none =>
    ({ st with
        yolo_id_to_custom_id := st.yolo_id_to_custom_id ++ [(yolo_id, st.next_custom_id)],
        next_custom_id := st.next_custom_id + 1 },
      st.next_custom_id)

/-- Processing of one suitcase detection (src lines 142–207, the state-
mutating part; drawing calls are presentation only).  Resolve the id; if the
custom id already has an assignment, skip the region check entirely
(`continue`, line 177); otherwise run the six-point region-check loop and,
on a verdict, append the write-once assignment. -/
def processSuitcase (r1 r2 : RegionPoly) (st : CounterState)
    (x1 y1 x2 y2 : Int) (yolo_id : Int) : CounterState :=
  let res := resolveId st yolo_id
  let st1 := res.1
  let unique_id := res.2
  if (alookup unique_id st1.object_region_assignments).isSome then st1
  else
    match findVerdict r1 r2 (check_points x1 y1 x2 y2) with
    | some rg => { st1 with
        object_region_assignments := st1.object_region_assignments ++ [(unique_id, rg)] }
    | none => st1

/-- Number of `is_in_region` geometry tests performed while processing one
suitcase detection: zero when the resolved id already has an assignment
(the short-circuit `continue`), the region-check loop's tests otherwise. -/
def suitcaseGeomTests (r1 r2 : RegionPoly) (st : CounterState)
    (x1 y1 x2 y2 : Int) (yolo_id : Int) : Nat :=
  let res := resolveId st yolo_id
  let st1 := res.1
  let unique_id := res.2
  if (alookup unique_id st1.object_region_assignments).isSome then 0
  else findVerdictTests r1 r2 (check_points x1 y1 x2 y2)

/-! ## Per-frame processing (src lines 111–252) -/

/-- One raw per-detection tuple produced by `zip(boxes, classes, track_ids)`
(src line 139).  The box is kept as a raw coordinate list because the
source unpacks `x1, y1, x2, y2 = box` only after the class filter, and that
unpacking raises (and aborts the frame's loop) when the box is malformed. -/
structure RawDetection where
  boxCoords : List Int
  cls : Int
  yolo_id : Int
deriving DecidableEq, Repr

/-- Python tuple unpacking `x1, y1, x2, y2 = box`: succeeds exactly on a
4-element sequence. -/
def decodeBox : List Int → Option (Int × Int × Int × Int)
  | [x1, y1, x2, y2] => some (x1, y1, x2, y2)
  | _ => none

/-- One iteration of the detection loop (src lines 139–242) as a fallible
step: non-suitcase classes are skipped untouched (the unpacking is inside
the `if cls_val == 28` branch, so a malformed box of another class raises
nothing); a suitcase with a malformed box raises (modelled as `error`). -/
def processDetection (r1 r2 : RegionPoly) (st : CounterState)
    (d : RawDetection) : Except String CounterState :=
  if d.cls = 28 then
    match decodeBox d.boxCoords with
    | some (x1, y1, x2, y2) =>
        Except.ok (processSuitcase r1 r2 st x1 y1 x2 y2 d.yolo_id)
    | none => Except.error "ValueError: cannot unpack box"
  else Except.ok st

/-- The detection loop under the frame's `try` (src lines 134–244): process
detections in order; an exception escapes the loop into the `except`
handler, which logs and keeps all state mutated before the exception. -/
def runDetections (r1 r2 : RegionPoly) (st : CounterState) :
    List RawDetection → CounterState
  | [] => st
  | d :: rest =>
    match processDetection r1 r2 st d with
    | Except.ok st' => runDetections r1 r2 st' rest
    | Except.error _ => st

/-- The per-frame tracker output as seen by `process_frame`'s branches:
no detections at all (line 247), detections but no tracking ids (line 245),
tracker tensors whose extraction raises (caught at line 243 before any
state mutation), or a well-extracted detection list. -/
inductive FrameOutput where
  | noDetections : FrameOutput
  | noTrackIds : FrameOutput
  | malformed : String → FrameOutput
  | tracked : List RawDetection → FrameOutput
deriving DecidableEq, Repr

/-- State effect of `process_frame` (src lines 111–252): only the tracked
branch touches the counter state; the other branches just log. -/
def processFrame (r1 r2 : RegionPoly) (st : CounterState) :
    FrameOutput → CounterState
  | FrameOutput.noDetections => st
  | FrameOutput.noTrackIds => st
  | FrameOutput.malformed _ => st
  | FrameOutput.tracked dets => runDetections r1 r2 st dets

/-- State effect of `process_video`'s frame loop (src lines 254–275) from a
given starting state: fold `process_frame` over the frames in arrival
order. -/
def runFrames (r1 r2 : RegionPoly) (st : CounterState)
    (frames : List FrameOutput) : CounterState :=
  frames.foldl (processFrame r1 r2) st

/-- A whole run: `__init__` state, then the frame loop. -/
def runVideo (r1 r2 : RegionPoly) (frames : List FrameOutput) : CounterState :=
  runFrames r1 r2 initState frames

/-! ## Reported statistics (src lines 85–89 and 283–285) -/

/-- Source `sum(1 for r in self.object_region_assignments.values() if r == 1)`. -/
def region1_count (st : CounterState) : Nat :=
  st.object_region_assignments.countP (fun kv => kv.2 = 1)

/-- Source `sum(1 for r in self.object_region_assignments.values() if r == 2)`. -/
def region2_count (st : CounterState) : Nat :=
  st.object_region_assignments.countP (fun kv => kv.2 = 2)

/-- Source `total_count = region1_count + region2_count`. -/
def total_count (st : CounterState) : Nat :=
  region1_count st + region2_count st

/-! ## Association-list lemmas -/

theorem alookup_append {α β : Type} [DecidableEq α] (k : α) (l l2 : List (α × β)) :
    alookup k (l ++ l2) = ((alookup k l).or (alookup k l2)) := by
  induction l with
  | nil => simp [alookup]
  | cons kv rest ih =>
    obtain ⟨k', v'⟩ := kv
    by_cases hk : k = k' <;> simp [alookup, hk, ih]

theorem alookup_append_of_some {α β : Type} [DecidableEq α] {k : α} {v : β}
    {l : List (α × β)} (l2 : List (α × β)) (h : alookup k l = some v) :
    alookup k (l ++ l2) = some v := by
  rw [alookup_append, h]; rfl

theorem alookup_append_right {α β : Type} [DecidableEq α] {k : α}
    {l : List (α × β)} (l2 : List (α × β)) (h : alookup k l = none) :
    alookup k (l ++ l2) = alookup k l2 := by
  rw [alookup_append, h]; rfl

theorem alookup_append_self {α β : Type} [DecidableEq α] {k : α} {l : List (α × β)}
    (v : β) (h : alookup k l = none) : alookup k (l ++ [(k, v)]) = some v := by
  rw [alookup_append_right _ h]; simp [alookup]

theorem alookup_eq_none_iff {α β : Type} [DecidableEq α] {k : α} {l : List (α × β)} :
    alookup k l = none ↔ k ∉ l.map Prod.fst := by
  induction l with
  | nil => simp [alookup]
  | cons kv rest ih =>
    obtain ⟨k', v'⟩ := kv
    by_cases hk : k = k' <;> simp [alookup, hk, ih]

/-! ## The state only ever grows -/

/-- State `st2` extends `st`: both dicts of `st2` are `st`'s with entries appended
at the end, and the issuance counter has not decreased. -/
def ExtendsSt (st st2 : CounterState) : Prop :=
  (∃ ml, st2.yolo_id_to_custom_id = st.yolo_id_to_custom_id ++ ml) ∧
  (∃ al, st2.object_region_assignments = st.object_region_assignments ++ al) ∧
  st.next_custom_id ≤ st2.next_custom_id

theorem extendsSt_refl (st : CounterState) : ExtendsSt st st :=
  ⟨⟨[], by simp⟩, ⟨[], by simp⟩, Nat.le_refl _⟩

theorem extendsSt_trans {a b c : CounterState} (h1 : ExtendsSt a b)
    (h2 : ExtendsSt b c) : ExtendsSt a c := by
  obtain ⟨⟨m1, hm1⟩, ⟨a1, ha1⟩, hn1⟩ := h1
  obtain ⟨⟨m2, hm2⟩, ⟨a2, ha2⟩, hn2⟩ := h2
  exact ⟨⟨m1 ++ m2, by rw [hm2, hm1, List.append_assoc]⟩,
    ⟨a1 ++ a2, by rw [ha2, ha1, List.append_assoc]⟩, Nat.le_trans hn1 hn2⟩

theorem resolveId_extends (st : CounterState) (y : Int) :
    ExtendsSt st (resolveId st y).1 := by
  unfold resolveId
  cases h : alookup y st.yolo_id_to_custom_id with
  | some uid => exact extendsSt_refl st
  | none => exact ⟨⟨[(y, st.next_custom_id)], rfl⟩, ⟨[], by simp⟩, Nat.le_succ _⟩

theorem resolveId_fst_assignments (st : CounterState) (y : Int) :
    (resolveId st y).1.object_region_assignments = st.object_region_assignments := by
  unfold resolveId
  cases h : alookup y st.yolo_id_to_custom_id <;> rfl

theorem processSuitcase_extends (r1 r2 : RegionPoly) (st : CounterState)
    (x1 y1 x2 y2 yolo_id : Int) :
    ExtendsSt st (processSuitcase r1 r2 st x1 y1 x2 y2 yolo_id) := by
  refine extendsSt_trans (resolveId_extends st yolo_id) ?h
  unfold processSuitcase
  set st1 := (resolveId st yolo_id).1 with hst1
  by_cases ha : (alookup (resolveId st yolo_id).2 st1.object_region_assignments).isSome
  · simp only [ha, if_pos]
    exact extendsSt_refl st1
  · simp only [ha, if_neg, Bool.false_eq_true, not_false_iff]
    cases hv : findVerdict r1 r2 (check_points x1 y1 x2 y2) with
    | some rg => exact ⟨⟨[], by simp⟩, ⟨[((resolveId st yolo_id).2, rg)], rfl⟩, Nat.le_refl _⟩
    | none => exact extendsSt_refl st1

theorem runDetections_extends (r1 r2 : RegionPoly) (ds : List RawDetection)
    (st : CounterState) : ExtendsSt st (runDetections r1 r2 st ds) := by
  induction ds generalizing st with
  | nil => exact extendsSt_refl st
  | cons d rest ih =>
    show ExtendsSt st (runDetections r1 r2 st (d :: rest))
    unfold runDetections processDetection
    by_cases hc : d.cls = 28
    · simp only [hc, if_pos]
      cases hb : decodeBox d.boxCoords with
      | some t =>
        obtain ⟨x1, y1, x2, y2⟩ := t
        exact extendsSt_trans (processSuitcase_extends r1 r2 st x1 y1 x2 y2 d.yolo_id) (ih _)
      | none => exact extendsSt_refl st
    · simp only [hc, if_neg, not_false_iff]
      exact ih st

theorem processFrame_extends (r1 r2 : RegionPoly) (st : CounterState)
    (f : FrameOutput) : ExtendsSt st (processFrame r1 r2 st f) := by
  cases f with
  | noDetections => exact extendsSt_refl st
  | noTrackIds => exact extendsSt_refl st
  | malformed e => exact extendsSt_refl st
  | tracked dets => exact runDetections_extends r1 r2 dets st

theorem runFrames_extends (r1 r2 : RegionPoly) (frames : List FrameOutput)
    (st : CounterState) : ExtendsSt st (runFrames r1 r2 st frames) := by
  induction frames generalizing st with
  | nil => exact extendsSt_refl st
  | cons f rest ih =>
    exact extendsSt_trans (processFrame_extends r1 r2 st f) (ih (processFrame r1 r2 st f))

theorem extendsSt_alookup {st st2 : CounterState} (h : ExtendsSt st st2)
    {uid rg : Nat} (ha : alookup uid st.object_region_assignments = some rg) :
    alookup uid st2.object_region_assignments = some rg := by
  obtain ⟨-, ⟨al, hal⟩, -⟩ := h
  rw [hal]
  exact alookup_append_of_some al ha

/-! ## Run invariant: issuance and ledger shape -/

/-- Verdicts produced by the region-check loop are only Region 1 or 2. -/
theorem findVerdict_eq_one_or_two (r1 r2 : RegionPoly) (pts : List Pt) (rg : Nat)
    (h : findVerdict r1 r2 pts = some rg) : rg = 1 ∨ rg = 2 := by
  induction pts with
  | nil => simp [findVerdict] at h
  | cons cp rest ih =>
    by_cases h1 : is_in_region cp r1
    · left
      simp only [findVerdict, h1, if_pos, Option.some_inj] at h
      omega
    · by_cases h2 : is_in_region cp r2
      · right
        simp only [findVerdict, h1, h2, if_pos, if_neg, Bool.false_eq_true,
          not_false_iff, Option.some_inj] at h
        omega
      · simp only [findVerdict, h1, h2, if_neg, Bool.false_eq_true, not_false_iff] at h
        exact ih h

/-- The run invariant: registry keys are distinct; the registry's values, in
insertion order, are exactly `1, 2, ..., next_custom_id - 1`; the counter is
at least 1; ledger keys are distinct; ledger values are only 1 or 2. -/
def StateInv (st : CounterState) : Prop :=
  (st.yolo_id_to_custom_id.map Prod.fst).Nodup ∧
  st.yolo_id_to_custom_id.map Prod.snd = List.range' 1 (st.next_custom_id - 1) ∧
  1 ≤ st.next_custom_id ∧
  (st.object_region_assignments.map Prod.fst).Nodup ∧
  ∀ kv ∈ st.object_region_assignments, kv.2 = 1 ∨ kv.2 = 2

theorem initState_inv : StateInv initState := by
  refine ⟨?a, ?b, ?c, ?d, ?e⟩ <;> simp [initState, StateInv]

theorem resolveId_inv {st : CounterState} (h : StateInv st) (y : Int) :
    StateInv (resolveId st y).1 := by
  obtain ⟨hky, hvy, hn, hka, hva⟩ := h
  unfold resolveId
  cases hl : alookup y st.yolo_id_to_custom_id with
  | some uid => exact ⟨hky, hvy, hn, hka, hva⟩
  | none =>
    refine ⟨?a, ?b, ?c, hka, hva⟩
    · simp only [List.map_append, List.map_cons, List.map_nil, List.nodup_append]
      refine ⟨hky, List.nodup_singleton _, ?dj⟩
      simp only [List.disjoint_singleton]
      exact alookup_eq_none_iff.mp hl
    · simp only [List.map_append, List.map_cons, List.map_nil, hvy]
      have h1 : st.next_custom_id + 1 - 1 = (st.next_custom_id - 1) + 1 := by omega
      rw [h1, List.range'_concat]
      have h2 : 1 + 1 * (st.next_custom_id - 1) = st.next_custom_id := by omega
      rw [h2]
    · exact Nat.le_succ_of_le hn

theorem processSuitcase_inv {st : CounterState} (h : StateInv st)
    (r1 r2 : RegionPoly) (x1 y1 x2 y2 yolo_id : Int) :
    StateInv (processSuitcase r1 r2 st x1 y1 x2 y2 yolo_id) := by
  have h1 : StateInv (resolveId st yolo_id).1 := resolveId_inv h yolo_id
  obtain ⟨hky, hvy, hn, hka, hva⟩ := h1
  unfold processSuitcase
  by_cases ha : (alookup (resolveId st yolo_id).2
      (resolveId st yolo_id).1.object_region_assignments).isSome
  · simp only [ha, if_pos]
    exact ⟨hky, hvy, hn, hka, hva⟩
  · simp only [ha, if_neg, Bool.false_eq_true, not_false_iff]
    cases hv : findVerdict r1 r2 (check_points x1 y1 x2 y2) with
    | some rg =>
      refine ⟨hky, hvy, hn, ?d, ?e⟩
      · simp only [List.map_append, List.map_cons, List.map_nil, List.nodup_append]
        refine ⟨hka, List.nodup_singleton _, ?dj⟩
        simp only [List.disjoint_singleton]
        rw [← alookup_eq_none_iff (k := (resolveId st yolo_id).2)]
        simp only [Option.isSome_iff_ne_none, ne_eq, not_not] at ha
        exact ha
      · intro kv hkv
        rcases List.mem_append.mp hkv with hm | hm
        · exact hva kv hm
        · simp only [List.mem_singleton] at hm
          subst hm
          exact findVerdict_eq_one_or_two r1 r2 _ rg hv
    | none => exact ⟨hky, hvy, hn, hka, hva⟩

theorem runDetections_inv (r1 r2 : RegionPoly) (ds : List RawDetection)
    {st : CounterState} (h : StateInv st) : StateInv (runDetections r1 r2 st ds) := by
  induction ds generalizing st with
  | nil => exact h
  | cons d rest ih =>
    show StateInv (runDetections r1 r2 st (d :: rest))
    unfold runDetections processDetection
    by_cases hc : d.cls = 28
    · simp only [hc, if_pos]
      cases hb : decodeBox d.boxCoords with
      | some t =>
        obtain ⟨x1, y1, x2, y2⟩ := t
        exact ih (processSuitcase_inv h r1 r2 x1 y1 x2 y2 d.yolo_id)
      | none => exact h
    · simp only [hc, if_neg, not_false_iff]
      exact ih h

theorem processFrame_inv (r1 r2 : RegionPoly) (f : FrameOutput)
    {st : CounterState} (h : StateInv st) : StateInv (processFrame r1 r2 st f) := by
  cases f with
  | noDetections => exact h
  | noTrackIds => exact h
  | malformed e => exact h
  | tracked dets => exact runDetections_inv r1 r2 dets h

theorem runFrames_inv (r1 r2 : RegionPoly) (frames : List FrameOutput)
    {st : CounterState} (h : StateInv st) : StateInv (runFrames r1 r2 st frames) := by
  induction frames generalizing st with
  | nil => exact h
  | cons f rest ih => exact ih (processFrame_inv r1 r2 f h)

theorem runVideo_inv (r1 r2 : RegionPoly) (frames : List FrameOutput) :
    StateInv (runVideo r1 r2 frames) :=
  runFrames_inv r1 r2 frames initState_inv

/-- Splitting the ledger length by its (only possible) values. -/
theorem countP_one_two_length {l : List (Nat × Nat)}
    (h : ∀ kv ∈ l, kv.2 = 1 ∨ kv.2 = 2) :
    l.countP (fun kv => kv.2 = 1) + l.countP (fun kv => kv.2 = 2) = l.length := by
  induction l with
  | nil => simp
  | cons kv rest ih =>
    have hr : ∀ kv ∈ rest, kv.2 = 1 ∨ kv.2 = 2 := fun x hx => h x (List.mem_cons_of_mem kv hx)
    have hih := ih hr
    simp only [List.countP_cons, List.length_cons]
    rcases h kv (List.mem_cons_self kv rest) with h1 | h1 <;> simp [h1] <;> omega

/-! ## Concrete fixtures used by witnesses -/

/-- An axis-aligned square region covering x ∈ [150,250], y ∈ [150,250]
(Scenario A's Region 1). -/
def regionA : RegionPoly := [(150, 150), (250, 150), (250, 250), (150, 250)]

/-- A small square region near the origin, away from all sample points used
in the scenarios ("Region 2 empty elsewhere"). -/
def regionB : RegionPoly := [(0, 0), (10, 0), (10, 10), (0, 10)]

/-- A state in which YOLO id 7 has been resolved to custom id 1 and custom
id 1 is already frozen to Region 1. -/
def stAssigned : CounterState := ⟨[(7, 1)], 2, [(1, 1)]⟩

/-- A later detection of YOLO id 7 at an arbitrary position. -/
def laterDet : RawDetection := ⟨[300, 300, 400, 400], 28, 7⟩

/-! ## Claims -/

/-- C1.  Permanence of assignment: once region `rg` is recorded for custom
id `uid` in the assignment ledger, processing any further detections (with
arbitrary bounding boxes), and any further frames, never changes the
recorded region; and a detection that resolves to `uid` performs zero
`is_in_region` geometry tests (the `continue` short-circuit). -/
theorem assignment_permanence (r1 r2 : RegionPoly) (st : CounterState)
    (uid rg : Nat) (ds : List RawDetection) (frames : List FrameOutput)
    (x1 y1 x2 y2 yolo_id : Int)
    (h : alookup uid st.object_region_assignments = some rg)
    (hres : (resolveId st yolo_id).2 = uid) :
    alookup uid (runDetections r1 r2 st ds).object_region_assignments = some rg ∧
    alookup uid (runFrames r1 r2 st frames).object_region_assignments = some rg ∧
    suitcaseGeomTests r1 r2 st x1 y1 x2 y2 yolo_id = 0 := by
  refine ⟨extendsSt_alookup (runDetections_extends r1 r2 ds st) h,
    extendsSt_alookup (runFrames_extends r1 r2 frames st) h, ?t⟩
  have ha : alookup (resolveId st yolo_id).2
      (resolveId st yolo_id).1.object_region_assignments = some rg := by
    rw [resolveId_fst_assignments, hres]
    exact h
  show (if (alookup (resolveId st yolo_id).2
      (resolveId st yolo_id).1.object_region_assignments).isSome then 0
    else findVerdictTests r1 r2 (check_points x1 y1 x2 y2)) = 0
  rw [ha]
  rfl

/-- Witness for C1 at a concrete state: custom id 1 (YOLO id 7) is frozen to
Region 1; a later detection of YOLO id 7 at (300,300)-(400,400) leaves the
assignment unchanged and performs no geometry test. -/
theorem assignment_permanence_witness :
    alookup 1 stAssigned.object_region_assignments = some 1 ∧
    (resolveId stAssigned 7).2 = 1 ∧
    (alookup 1 (runDetections regionA regionB stAssigned
        [laterDet]).object_region_assignments = some 1 ∧
     alookup 1 (runFrames regionA regionB stAssigned
        [FrameOutput.tracked [laterDet]]).object_region_assignments = some 1 ∧
     suitcaseGeomTests regionA regionB stAssigned 300 300 400 400 7 = 0) :=
  ⟨by decide, by decide,
    assignment_permanence regionA regionB stAssigned 1 1 [laterDet]
      [FrameOutput.tracked [laterDet]] 300 300 400 400 7 (by decide) (by decide)⟩

/-- C4.  Idempotent identity resolution: resolving the same YOLO track id a
second time returns the same custom id and leaves the state unchanged, and
the issuance counter is incremented only on first sight. -/
theorem resolve_idempotent (st : CounterState) (y : Int) :
    resolveId (resolveId st y).1 y = resolveId st y ∧
    (resolveId st y).1.next_custom_id =
      (if (alookup y st.yolo_id_to_custom_id).isSome
       then st.next_custom_id else st.next_custom_id + 1) := by
  cases hl : alookup y st.yolo_id_to_custom_id with
  | some uid =>
    have hres : resolveId st y = (st, uid) := by
      unfold resolveId
      rw [hl]
    rw [hres]
    exact ⟨hres, rfl⟩
  | none =>
    have hres : resolveId st y =
        ({ st with
            yolo_id_to_custom_id :=
              st.yolo_id_to_custom_id ++ [(y, st.next_custom_id)],
            next_custom_id := st.next_custom_id + 1 },
          st.next_custom_id) := by
      unfold resolveId
      rw [hl]
    rw [hres]
    constructor
    · have hl2 : alookup y (st.yolo_id_to_custom_id ++ [(y, st.next_custom_id)]) =
          some st.next_custom_id := alookup_append_self _ hl
      unfold resolveId
      rw [hl2]
    · rfl

/-- C5.  Monotonic issuance: after any run, the registry's YOLO-id keys are
distinct and its custom-id values, in order of issuance, are exactly
`1, 2, ..., next_custom_id - 1`: strictly increasing consecutive positive
integers starting at 1, one per distinct YOLO id first seen, none reused. -/
theorem issuance_monotonic (r1 r2 : RegionPoly) (frames : List FrameOutput) :
    ((runVideo r1 r2 frames).yolo_id_to_custom_id.map Prod.fst).Nodup ∧
    (runVideo r1 r2 frames).yolo_id_to_custom_id.map Prod.snd =
      List.range' 1 ((runVideo r1 r2 frames).next_custom_id - 1) ∧
    1 ≤ (runVideo r1 r2 frames).next_custom_id := by
  obtain ⟨a, b, c, -, -⟩ := runVideo_inv r1 r2 frames
  exact ⟨a, b, c⟩

/-- C6.  Count consistency: after any run, the Region 1 count plus the
Region 2 count equals the reported total and equals the number of identities
with a frozen assignment (the ledger's size; its keys are distinct). -/
theorem count_consistency (r1 r2 : RegionPoly) (frames : List FrameOutput) :
    region1_count (runVideo r1 r2 frames) + region2_count (runVideo r1 r2 frames) =
      total_count (runVideo r1 r2 frames) ∧
    total_count (runVideo r1 r2 frames) =
      (runVideo r1 r2 frames).object_region_assignments.length ∧
    ((runVideo r1 r2 frames).object_region_assignments.map Prod.fst).Nodup := by
  obtain ⟨-, -, -, hk, hv⟩ := runVideo_inv r1 r2 frames
  refine ⟨rfl, ?t, hk⟩
  show region1_count _ + region2_count _ = _
  unfold region1_count region2_count
  exact countP_one_two_length hv

/-- C8.  Class filtering: a detection whose class is not 28 (suitcase)
leaves the whole state — registry, issuance counter, assignment ledger —
unchanged: its loop iteration is a no-op. -/
theorem class_filter_ignored (r1 r2 : RegionPoly) (st : CounterState)
    (d : RawDetection) (rest : List RawDetection) (h : d.cls ≠ 28) :
    processDetection r1 r2 st d = Except.ok st ∧
    runDetections r1 r2 st (d :: rest) = runDetections r1 r2 st rest := by
  have h1 : processDetection r1 r2 st d = Except.ok st := by
    unfold processDetection
    rw [if_neg h]
  refine ⟨h1, ?r⟩
  show runDetections r1 r2 st (d :: rest) = runDetections r1 r2 st rest
  conv_lhs => unfold runDetections
  rw [h1]

/-- Witness for C8: a person detection (class 0) of YOLO id 5 is ignored
entirely. -/
theorem class_filter_ignored_witness :
    (RawDetection.mk [0, 0, 1, 1] 0 5).cls ≠ 28 ∧
    (processDetection regionA regionB initState (RawDetection.mk [0, 0, 1, 1] 0 5) =
       Except.ok initState ∧
     runDetections regionA regionB initState [RawDetection.mk [0, 0, 1, 1] 0 5] =
       runDetections regionA regionB initState []) :=
  ⟨by decide,
    class_filter_ignored regionA regionB initState (RawDetection.mk [0, 0, 1, 1] 0 5)
      [] (by decide)⟩

/-! ## Region-check loop order lemmas -/

/-- Candidate points that miss both regions are walked past: they contribute
two geometry tests each and do not affect the verdict. -/
theorem findVerdict_append_miss (r1 r2 : RegionPoly) :
    ∀ (pre : List Pt),
      (∀ p ∈ pre, is_in_region p r1 = false ∧ is_in_region p r2 = false) →
      ∀ rest : List Pt,
        findVerdict r1 r2 (pre ++ rest) = findVerdict r1 r2 rest ∧
        findVerdictTests r1 r2 (pre ++ rest) =
          2 * pre.length + findVerdictTests r1 r2 rest
  | [], _, rest => by simp
  | p :: ps, hpre, rest => by
    have hp := hpre p (List.mem_cons_self p ps)
    have hps : ∀ q ∈ ps, is_in_region q r1 = false ∧ is_in_region q r2 = false :=
      fun q hq => hpre q (List.mem_cons_of_mem p hq)
    obtain ⟨ihv, iht⟩ := findVerdict_append_miss r1 r2 ps hps rest
    constructor
    · show findVerdict r1 r2 (p :: (ps ++ rest)) = findVerdict r1 r2 rest
      conv_lhs => unfold findVerdict
      rw [hp.1, hp.2]
      simpa using ihv
    · show findVerdictTests r1 r2 (p :: (ps ++ rest)) =
        2 * (ps.length + 1) + findVerdictTests r1 r2 rest
      conv_lhs => unfold findVerdictTests
      rw [hp.1, hp.2]
      simp only [Bool.false_eq_true, if_false]
      rw [iht]
      omega

/-- If every point of the list that is inside Region 2 is also inside
Region 1, the loop can never return the Region 2 verdict. -/
theorem findVerdict_ne_two (r1 r2 : RegionPoly) (pts : List Pt)
    (hsub : ∀ p ∈ pts, is_in_region p r2 = true → is_in_region p r1 = true) :
    findVerdict r1 r2 pts ≠ some 2 := by
  induction pts with
  | nil => simp [findVerdict]
  | cons cp rest ih =>
    intro hcon
    unfold findVerdict at hcon
    by_cases hr1 : is_in_region cp r1
    · rw [if_pos hr1] at hcon
      simp at hcon
    · rw [if_neg hr1] at hcon
      by_cases hr2 : is_in_region cp r2
      · exact hr1 (hsub cp (List.mem_cons_self cp rest) hr2)
      · rw [if_neg hr2] at hcon
        exact ih (fun q hq => hsub q (List.mem_cons_of_mem cp hq)) hcon

/-- For an unassigned identity, a loop verdict `rg` is committed to the
ledger: the identity's recorded region becomes `rg`. -/
theorem processSuitcase_commits (r1 r2 : RegionPoly) (st : CounterState)
    (x1 y1 x2 y2 yolo_id : Int) (rg : Nat)
    (hun : alookup (resolveId st yolo_id).2
      (resolveId st yolo_id).1.object_region_assignments = none)
    (hv : findVerdict r1 r2 (check_points x1 y1 x2 y2) = some rg) :
    alookup (resolveId st yolo_id).2
      (processSuitcase r1 r2 st x1 y1 x2 y2 yolo_id).object_region_assignments =
      some rg := by
  simp only [processSuitcase]
  rw [hun, hv]
  simp only [Option.isSome_none, Bool.false_eq_true, if_false]
  exact alookup_append_self rg hun

/-- For an unassigned identity, the geometry work done is exactly the
region-check loop's. -/
theorem suitcaseGeomTests_unassigned (r1 r2 : RegionPoly) (st : CounterState)
    (x1 y1 x2 y2 yolo_id : Int)
    (hun : alookup (resolveId st yolo_id).2
      (resolveId st yolo_id).1.object_region_assignments = none) :
    suitcaseGeomTests r1 r2 st x1 y1 x2 y2 yolo_id =
      findVerdictTests r1 r2 (check_points x1 y1 x2 y2) := by
  simp only [suitcaseGeomTests]
  rw [hun]
  simp only [Option.isSome_none, Bool.false_eq_true, if_false]

/-! ## C2, C3, C7: loop order, tie-break, six points -/

/-- C2.  Per-point stop-on-first-hit order: walking the candidate points in
their fixed order (Region 1 tested before Region 2 for each point), the
first point that hits a region decides the verdict; a point that hits only
Region 2 commits Region 2 for the identity even if a later point would hit
Region 1, and the geometry-test count `2 * pre.length + 2` shows the
remaining candidate points are never evaluated. -/
theorem first_hit_decides (r1 r2 : RegionPoly) (st : CounterState)
    (x1 y1 x2 y2 yolo_id : Int) (pre post : List Pt) (cp : Pt)
    (hsplit : check_points x1 y1 x2 y2 = pre ++ cp :: post)
    (hpre : ∀ p ∈ pre, is_in_region p r1 = false ∧ is_in_region p r2 = false)
    (h1 : is_in_region cp r1 = false) (h2 : is_in_region cp r2 = true)
    (hun : alookup (resolveId st yolo_id).2
      (resolveId st yolo_id).1.object_region_assignments = none) :
    alookup (resolveId st yolo_id).2
      (processSuitcase r1 r2 st x1 y1 x2 y2 yolo_id).object_region_assignments =
      some 2 ∧
    suitcaseGeomTests r1 r2 st x1 y1 x2 y2 yolo_id = 2 * pre.length + 2 := by
  obtain ⟨hv0, ht0⟩ := findVerdict_append_miss r1 r2 pre hpre (cp :: post)
  have hv : findVerdict r1 r2 (check_points x1 y1 x2 y2) = some 2 := by
    rw [hsplit, hv0]
    simp [findVerdict, h1, h2]
  have ht : findVerdictTests r1 r2 (check_points x1 y1 x2 y2) =
      2 * pre.length + 2 := by
    rw [hsplit, ht0]
    simp [findVerdictTests, h1, h2]
  exact ⟨processSuitcase_commits r1 r2 st x1 y1 x2 y2 yolo_id 2 hun hv,
    (suitcaseGeomTests_unassigned r1 r2 st x1 y1 x2 y2 yolo_id hun).trans ht⟩

/-- A square region covering x ∈ [190,210], y ∈ [140,160]: contains the 6th
candidate point (200,150) of box (100,100)-(200,200) and no earlier one. -/
def regionC : RegionPoly := [(190, 140), (210, 140), (210, 160), (190, 160)]

/-- A square region covering x ∈ [140,160], y ∈ [190,210]: contains the 4th
candidate point (150,200) of box (100,100)-(200,200) and no earlier one. -/
def regionD : RegionPoly := [(140, 190), (160, 190), (160, 210), (140, 210)]

/-- The first three candidate points of box (100,100)-(200,200). -/
def preMiss : List Pt := [(200, 100), (100, 200), (200, 200)]

/-- The last two candidate points of box (100,100)-(200,200). -/
def postPts : List Pt := [(100, 150), (200, 150)]

theorem split_hundred : check_points 100 100 200 200 =
    preMiss ++ (150, 200) :: postPts := by
  norm_num [check_points, preMiss, postPts]

theorem preMiss_misses :
    ∀ p ∈ preMiss, is_in_region p regionC = false ∧ is_in_region p regionD = false := by
  intro p hp
  simp only [preMiss, List.mem_cons, List.not_mem_nil, or_false] at hp
  rcases hp with rfl | rfl | rfl <;> constructor <;>
    norm_num [is_in_region, containsPoint, edges, onSegment, edgeCrosses, cross2,
      regionC, regionD, List.zip, List.zipWith, List.any, List.countP,
      List.countP.go, min_def, max_def]

theorem midBottom_not_in_regionC : is_in_region (150, 200) regionC = false := by
  norm_num [is_in_region, containsPoint, edges, onSegment, edgeCrosses, cross2,
    regionC, List.zip, List.zipWith, List.any, List.countP, List.countP.go,
    min_def, max_def]

theorem midBottom_in_regionD : is_in_region (150, 200) regionD = true := by
  norm_num [is_in_region, containsPoint, edges, onSegment, edgeCrosses, cross2,
    regionD, List.zip, List.zipWith, List.any, List.countP, List.countP.go,
    min_def, max_def]

/-- Witness for C2: for box (100,100)-(200,200), the 4th candidate point
(150,200) is the first hit and hits only Region 2 (`regionD`); the identity
is committed to Region 2 after 8 = 2·3+2 geometry tests, although the 6th
point (200,150) lies in Region 1 (`regionC`). -/
theorem first_hit_decides_witness :
    is_in_region (150, 200) regionC = false ∧
    is_in_region (150, 200) regionD = true ∧
    (alookup (resolveId initState 7).2
        (processSuitcase regionC regionD initState 100 100 200 200 7).object_region_assignments =
        some 2 ∧
     suitcaseGeomTests regionC regionD initState 100 100 200 200 7 =
        2 * preMiss.length + 2) :=
  ⟨midBottom_not_in_regionC, midBottom_in_regionD,
    first_hit_decides regionC regionD initState 100 100 200 200 7 preMiss postPts
      (150, 200) split_hundred preMiss_misses midBottom_not_in_regionC
      midBottom_in_regionD (by decide)⟩

/-- C3.  Priority tie-break: a candidate point inside both Region 1 and
Region 2 simultaneously commits Region 1 for the identity; and whenever
every candidate point inside Region 2 is also inside Region 1 (overlapping
polygons), the loop can never produce the Region 2 verdict. -/
theorem region1_priority (r1 r2 : RegionPoly) (st : CounterState)
    (x1 y1 x2 y2 yolo_id : Int) (pre post : List Pt) (cp : Pt) (pts : List Pt)
    (hsplit : check_points x1 y1 x2 y2 = pre ++ cp :: post)
    (hpre : ∀ p ∈ pre, is_in_region p r1 = false ∧ is_in_region p r2 = false)
    (hb1 : is_in_region cp r1 = true) (hb2 : is_in_region cp r2 = true)
    (hun : alookup (resolveId st yolo_id).2
      (resolveId st yolo_id).1.object_region_assignments = none)
    (hsub : ∀ p ∈ pts, is_in_region p r2 = true → is_in_region p r1 = true) :
    alookup (resolveId st yolo_id).2
      (processSuitcase r1 r2 st x1 y1 x2 y2 yolo_id).object_region_assignments =
      some 1 ∧
    findVerdict r1 r2 pts ≠ some 2 := by
  obtain ⟨hv0, -⟩ := findVerdict_append_miss r1 r2 pre hpre (cp :: post)
  have hv : findVerdict r1 r2 (check_points x1 y1 x2 y2) = some 1 := by
    rw [hsplit, hv0]
    simp [findVerdict, hb1]
  exact ⟨processSuitcase_commits r1 r2 st x1 y1 x2 y2 yolo_id 1 hun hv,
    findVerdict_ne_two r1 r2 pts hsub⟩

/-- A square region covering x ∈ [0,10], y ∈ [0,10]. -/
def regionE : RegionPoly := [(0, 0), (10, 0), (10, 10), (0, 10)]

/-- A square region covering x ∈ [5,15], y ∈ [5,15]; it overlaps `regionE`
on the square (5,10) × (5,10), which contains (7,7). -/
def regionF : RegionPoly := [(5, 5), (15, 5), (15, 15), (5, 15)]

theorem overlap_in_regionE : is_in_region (7, 7) regionE = true := by
  norm_num [is_in_region, containsPoint, edges, onSegment, edgeCrosses, cross2,
    regionE, List.zip, List.zipWith, List.any, List.countP, List.countP.go,
    min_def, max_def]

theorem overlap_in_regionF : is_in_region (7, 7) regionF = true := by
  norm_num [is_in_region, containsPoint, edges, onSegment, edgeCrosses, cross2,
    regionF, List.zip, List.zipWith, List.any, List.countP, List.countP.go,
    min_def, max_def]

theorem split_box_eef : check_points 100 7 7 7 =
    [] ++ (7, 7) :: [(100, 7), (7, 7), (107 / 2, 7), (100, 7), (7, 7)] := by
  norm_num [check_points]

theorem regionF_subset_regionE_on :
    ∀ p ∈ ([(7, 7), (20, 20)] : List Pt),
      is_in_region p regionF = true → is_in_region p regionE = true := by
  intro p hp
  simp only [List.mem_cons, List.not_mem_nil, or_false] at hp
  rcases hp with rfl | rfl
  · intro _
    exact overlap_in_regionE
  · intro hc
    have : is_in_region (20, 20) regionF = false := by
      norm_num [is_in_region, containsPoint, edges, onSegment, edgeCrosses, cross2,
        regionF, List.zip, List.zipWith, List.any, List.countP, List.countP.go,
        min_def, max_def]
    rw [this] at hc
    cases hc

/-- Witness for C3: the first candidate point of box (100,7)-(7,7) is (7,7),
inside both `regionE` and `regionF`; the identity is committed to Region 1. -/
theorem region1_priority_witness :
    is_in_region (7, 7) regionE = true ∧
    is_in_region (7, 7) regionF = true ∧
    (alookup (resolveId initState 3).2
        (processSuitcase regionE regionF initState 100 7 7 7 3).object_region_assignments =
        some 1 ∧
     findVerdict regionE regionF [(7, 7), (20, 20)] ≠ some 2) :=
  ⟨overlap_in_regionE, overlap_in_regionF,
    region1_priority regionE regionF initState 100 7 7 7 3 []
      [(100, 7), (7, 7), (107 / 2, 7), (100, 7), (7, 7)] (7, 7)
      [(7, 7), (20, 20)] split_box_eef
      (fun p hp => absurd hp (List.not_mem_nil p))
      overlap_in_regionE overlap_in_regionF (by decide)
      regionF_subset_regionE_on⟩

/-- C7.  Six candidate points: every unassigned detection with box
(x1,y1)-(x2,y2) is tested at exactly the six points top-right, bottom-left,
bottom-right, bottom midpoint, left midpoint, right midpoint, in that
order; for box (100,100)-(200,200) these are (200,100), (100,200),
(200,200), (150,200), (100,150), (200,150); with Region 1 covering
x ∈ [150,250], y ∈ [150,250] the first point inside Region 1 is the third,
(200,200) (5 = 2+2+1 geometry tests), and the identity is assigned
Region 1. -/
theorem six_check_points (x1 y1 x2 y2 : Int) :
    check_points x1 y1 x2 y2 =
      [ ((x2 : ℚ), (y1 : ℚ)), ((x1 : ℚ), (y2 : ℚ)), ((x2 : ℚ), (y2 : ℚ)),
        (((x1 : ℚ) + (x2 : ℚ)) / 2, (y2 : ℚ)),
        ((x1 : ℚ), ((y1 : ℚ) + (y2 : ℚ)) / 2),
        ((x2 : ℚ), ((y1 : ℚ) + (y2 : ℚ)) / 2) ] ∧
    check_points 100 100 200 200 =
      [(200, 100), (100, 200), (200, 200), (150, 200), (100, 150), (200, 150)] ∧
    findVerdict regionA regionB (check_points 100 100 200 200) = some 1 ∧
    findVerdictTests regionA regionB (check_points 100 100 200 200) = 5 ∧
    alookup (resolveId initState 7).2
      (processSuitcase regionA regionB initState 100 100 200 200 7).object_region_assignments =
      some 1 := by
  have hv : findVerdict regionA regionB (check_points 100 100 200 200) = some 1 := by
    norm_num [findVerdict, check_points, is_in_region, containsPoint, edges,
      onSegment, edgeCrosses, cross2, regionA, regionB, List.zip, List.zipWith,
      List.any, List.countP, List.countP.go, min_def, max_def]
  refine ⟨rfl, by norm_num [check_points], hv, ?d, ?e⟩
  · norm_num [findVerdictTests, check_points, is_in_region, containsPoint, edges,
      onSegment, edgeCrosses, cross2, regionA, regionB, List.zip, List.zipWith,
      List.any, List.countP, List.countP.go, min_def, max_def]
  · exact processSuitcase_commits regionA regionB initState 100 100 200 200 7 1
      (by decide) hv

/-! ## C9: per-frame error isolation -/

theorem runDetections_cons (r1 r2 : RegionPoly) (st : CounterState)
    (d : RawDetection) (ds : List RawDetection) :
    runDetections r1 r2 st (d :: ds) =
      match processDetection r1 r2 st d with
      | Except.ok st2 => runDetections r1 r2 st2 ds
      | Except.error _ => st := rfl

/-- C9.  Per-frame error isolation: a frame whose tracker-output extraction
raises is caught — the run continues on the remaining frames from the same
state; and an exception raised mid-way through the detection loop (here: a
suitcase whose box fails to unpack) aborts only the rest of that frame's
loop, preserving all registry and ledger state accumulated before the
exception. -/
theorem frame_error_isolation (r1 r2 : RegionPoly) (st : CounterState)
    (frames1 frames2 : List FrameOutput) (msg : String)
    (raws1 rest : List RawDetection) (bad : RawDetection)
    (hbadCls : bad.cls = 28) (hbadBox : decodeBox bad.boxCoords = none) :
    runFrames r1 r2 st (frames1 ++ FrameOutput.malformed msg :: frames2) =
      runFrames r1 r2 st (frames1 ++ frames2) ∧
    runDetections r1 r2 st (raws1 ++ bad :: rest) = runDetections r1 r2 st raws1 := by
  have herr : ∀ s : CounterState, processDetection r1 r2 s bad =
      Except.error "ValueError: cannot unpack box" := by
    intro s
    unfold processDetection
    rw [if_pos hbadCls, hbadBox]
  constructor
  · unfold runFrames
    rw [List.foldl_append, List.foldl_cons, List.foldl_append]
    rfl
  · induction raws1 generalizing st with
    | nil =>
      rw [List.nil_append, runDetections_cons, herr st]
      rfl
    | cons d ds ih =>
      rw [List.cons_append, runDetections_cons, runDetections_cons]
      cases hpd : processDetection r1 r2 st d with
      | ok st2 => exact ih st2
      | error e => rfl

/-- Witness for C9: a malformed frame between two tracked frames is skipped
with state preserved, and a suitcase detection whose box has only three
coordinates aborts the rest of its frame's loop. -/
theorem frame_error_isolation_witness :
    (RawDetection.mk [1, 2, 3] 28 9).cls = 28 ∧
    decodeBox (RawDetection.mk [1, 2, 3] 28 9).boxCoords = none ∧
    (runFrames regionA regionB initState
        (FrameOutput.tracked [RawDetection.mk [100, 100, 200, 200] 28 7] ::
          FrameOutput.malformed "tensor conversion failed" ::
          [FrameOutput.tracked [RawDetection.mk [0, 0, 5, 5] 28 4]]) =
      runFrames regionA regionB initState
        (FrameOutput.tracked [RawDetection.mk [100, 100, 200, 200] 28 7] ::
          [FrameOutput.tracked [RawDetection.mk [0, 0, 5, 5] 28 4]]) ∧
     runDetections regionA regionB initState
        ([RawDetection.mk [100, 100, 200, 200] 28 7] ++
          RawDetection.mk [1, 2, 3] 28 9 :: [RawDetection.mk [0, 0, 5, 5] 28 4]) =
      runDetections regionA regionB initState
        [RawDetection.mk [100, 100, 200, 200] 28 7]) :=
  ⟨rfl, rfl,
    frame_error_isolation regionA regionB initState
      [FrameOutput.tracked [RawDetection.mk [100, 100, 200, 200] 28 7]]
      [FrameOutput.tracked [RawDetection.mk [0, 0, 5, 5] 28 4]]
      "tensor conversion failed"
      [RawDetection.mk [100, 100, 200, 200] 28 7]
      [RawDetection.mk [0, 0, 5, 5] 28 4]
      (RawDetection.mk [1, 2, 3] 28 9) rfl rfl⟩

/-! ## C10: strict interior membership (boundary excluded) -/

/-- Point `p` lies on the boundary of the polygon: it is a convex combination of
the endpoints of one of the closed ring's edges. -/
def OnBoundary (poly : RegionPoly) (p : Pt) : Prop :=
  ∃ a b : Pt, (a, b) ∈ edges poly ∧
    ∃ t : ℚ, 0 ≤ t ∧ t ≤ 1 ∧
      p.1 = a.1 + t * (b.1 - a.1) ∧ p.2 = a.2 + t * (b.2 - a.2)

/-- A convex combination of two rationals lies between their min and max. -/
theorem convex_combination_between {x y t : ℚ} (h0 : 0 ≤ t) (h1 : t ≤ 1) :
    min x y ≤ x + t * (y - x) ∧ x + t * (y - x) ≤ max x y := by
  rcases le_total x y with hxy | hxy
  · rw [min_eq_left hxy, max_eq_right hxy]
    constructor <;> nlinarith
  · rw [min_eq_right hxy, max_eq_left hxy]
    constructor <;> nlinarith

/-- C10.  Strict interior membership: the region-membership test returns
false for every point lying exactly on the boundary of the region polygon
(an edge or a vertex), so a candidate point on a region's border never
produces an assignment. -/
theorem boundary_not_contained (poly : RegionPoly) (p : Pt)
    (h : OnBoundary poly p) : is_in_region p poly = false := by
  obtain ⟨a, b, hmem, t, ht0, ht1, hx, hy⟩ := h
  have hseg : onSegment p a b = true := by
    unfold onSegment
    rw [decide_eq_true_eq]
    refine ⟨?cr, ?x1, ?x2, ?y1, ?y2⟩
    · show (b.1 - a.1) * (p.2 - a.2) - (b.2 - a.2) * (p.1 - a.1) = 0
      rw [hx, hy]
      ring
    · rw [hx]
      exact (convex_combination_between ht0 ht1).1
    · rw [hx]
      exact (convex_combination_between ht0 ht1).2
    · rw [hy]
      exact (convex_combination_between ht0 ht1).1
    · rw [hy]
      exact (convex_combination_between ht0 ht1).2
  have hany : (edges poly).any (fun e => onSegment p e.1 e.2) = true :=
    List.any_eq_true.mpr ⟨(a, b), hmem, hseg⟩
  unfold is_in_region containsPoint
  rw [hany]
  rfl

/-- The point (5,0) lies on the bottom edge of `regionE` (from (0,0) to
(10,0)), at parameter t = 1/2. -/
theorem boundary_point_on_edge : OnBoundary regionE (5, 0) := by
  refine ⟨(0, 0), (10, 0), ?m, 1 / 2, by norm_num, by norm_num, ?hx, ?hy⟩
  · norm_num [edges, regionE, List.zip, List.zipWith]
  · norm_num
  · norm_num

/-- Witness for C10: (5,0) is on `regionE`'s boundary and is not inside. -/
theorem boundary_not_contained_witness :
    OnBoundary regionE (5, 0) ∧ is_in_region (5, 0) regionE = false :=
  ⟨boundary_point_on_edge,
    boundary_not_contained regionE (5, 0) boundary_point_on_edge⟩
